import Mathlib

/-!
Verification of the page-number placement and overlay-merge core of the
`PageNum_add` tool (`src/main.py`), against its natural-language specification.

Lengths are modelled as exact rationals (points).  The reportlab unit `cm` is
`72 / 2.54` points, which is exact in `ℚ`.  The position argument is modelled
as a `String`, mirroring the `if/elif` chain of `create_page_number_pdf`.
-/

namespace PageNumAdd

/-- reportlab's `cm` unit: `inch / 2.54` points with `inch = 72`. -/
def cm : ℚ := 3600 / 127

/-- reportlab's `mm` unit. -/
def mm : ℚ := cm / 10

/-- reportlab's A4 page size `(210*mm, 297*mm)` in points. -/
def A4 : ℚ × ℚ := (210 * mm, 297 * mm)

/-- reportlab's A3 page size in points. -/
def A3 : ℚ × ℚ := (297 * mm, 420 * mm)

/-- reportlab's `landscape`: swap the dimensions so that width ≥ height. -/
def landscape (pagesize : ℚ × ℚ) : ℚ × ℚ :=
  if pagesize.1 < pagesize.2 then (pagesize.2, pagesize.1) else pagesize

/-- Margins in centimetres, in the order of the Python tuple
`(top, right, bottom, left)` (`margins[0] … margins[3]` in `main.py`). -/
structure Margins where
  top : ℚ
  right : ℚ
  bottom : ℚ
  left : ℚ
deriving DecidableEq

/-- A resolved anchor for the numeral: x, y in points, rotation in degrees. -/
structure Anchor where
  x : ℚ
  y : ℚ
  angle : ℚ
deriving DecidableEq

/-- The position branch of `create_page_number_pdf` (`src/main.py`
lines 130–149): the pre-offset anchor for the numeral, computed from the
current page size, the margins (cm) and the footer band height (cm). -/
def resolveAnchor (pageSize : ℚ × ℚ) (margins : Margins) (footer_height : ℚ)
    (position : String) : Anchor :=
  if position = "top" then
    { x := (pageSize.1 - margins.left * cm - margins.right * cm) / 2 + margins.left * cm
      y := pageSize.2 - footer_height * cm
      angle := 0 }
  else if position = "bottom" then
    { x := (pageSize.1 - margins.left * cm - margins.right * cm) / 2 + margins.left * cm
      y := footer_height * cm
      angle := 0 }
  else if position = "left" then
    { x := footer_height * cm
      y := (pageSize.2 - margins.top * cm - margins.bottom * cm) / 2 + margins.top * cm
      angle := 270 }
  else if position = "right" then
    { x := pageSize.1 - footer_height * cm
      y := (pageSize.2 - margins.top * cm - margins.bottom * cm) / 2 + margins.top * cm
      angle := 90 }
  else
    { x := (pageSize.1 - margins.left * cm - margins.right * cm) / 2 + margins.left * cm
      y := footer_height * cm
      angle := 0 }

/-- The post-anchor adjustment of `create_page_number_pdf` (lines 151–160):
the fixed empirical offset `(+0.05*cm, +0.15*cm)` is added to `(x, y)`, then
for positions `top`, `bottom`, `auto` the x coordinate is decreased by half
the measured text width. -/
def adjustAnchor (position : String) (text_width : ℚ) (a : Anchor) : Anchor :=
  let x := a.x + (5 / 100) * cm
  let y := a.y + (15 / 100) * cm
  let x := if position ∈ (["top", "bottom", "auto"] : List String) then
    x - text_width / 2 else x
  { x := x, y := y, angle := a.angle }

/-- A single drawn numeral: `drawString` of `str(page_number)` after
`translate (x, y)` and `rotate angle` (lines 163–168). -/
structure Mark where
  x : ℚ
  y : ℚ
  angle : ℚ
  text : ℤ
deriving DecidableEq

/-- A PDF page: its media-box dimensions and its ordered content stream. -/
structure Page where
  size : ℚ × ℚ
  content : List Mark
deriving DecidableEq

instance : Inhabited Page := ⟨⟨(0, 0), []⟩⟩

/-- Errors of the font-registration step (lines 107–110). -/
inductive FontError
  | simsunMissing
  | fontUnreadable
deriving DecidableEq

/-- The default font path `os.path.join(WINDIR, 'FONTS', 'SIMSUN.TTC')`. -/
def simsunPath (windir : String) : String := windir ++ "/FONTS/SIMSUN.TTC"

/-- Font resolution of `create_page_number_pdf` (lines 107–110): when no font
path is given the Windows SimSun file is used and its existence is asserted
(fatal `AssertionError` when absent); registering an explicitly given but
unreadable font file also fails. There is no fallback font. -/
def resolveFont (font_path : Option String) (windir : String)
    (pathExists : String → Bool) : Except FontError String :=
  match font_path with
  | none =>
      if pathExists (simsunPath windir) then Except.ok (simsunPath windir)
      else Except.error FontError.simsunMissing
  | some p =>
      if pathExists p then Except.ok p else Except.error FontError.fontUnreadable

/-- One numeral-only overlay page produced by the canvas. -/
structure OverlayPage where
  size : ℚ × ℚ
  anchor : Anchor
  number : ℤ
deriving DecidableEq

/-- The per-page loop of `create_page_number_pdf` (lines 115–169): for each
source page `i`, pick the landscape variant of the nominal page size when the
source page's own width exceeds its height, compute `page_number =
start_page_number + i`, resolve and adjust the anchor, and emit one overlay
page. `stringWidth n` models `c.stringWidth(str(n), 'SimSun', font_size)`. -/
def overlayPages (srcPages : List Page) (margins : Margins) (footer_height : ℚ)
    (start_page_number : ℤ) (page_size : ℚ × ℚ) (position : String)
    (stringWidth : ℤ → ℚ) : List OverlayPage :=
  srcPages.enum.map fun p =>
    let current_page_size :=
      if p.2.size.1 > p.2.size.2 then landscape page_size else page_size
    let page_number := start_page_number + p.1
    let base := resolveAnchor current_page_size margins footer_height position
    { size := current_page_size
      anchor := adjustAnchor position (stringWidth page_number) base
      number := page_number }

/-- `create_page_number_pdf` (lines 100–173): the font is registered first;
a font failure aborts before any page is processed, otherwise one overlay
page per source page is produced. -/
def createPageNumberPdf (srcPages : List Page) (margins : Margins)
    (footer_height : ℚ) (start_page_number : ℤ) (page_size : ℚ × ℚ)
    (position : String) (font_path : Option String) (windir : String)
    (pathExists : String → Bool) (stringWidth : ℤ → ℚ) :
    Except FontError (List OverlayPage) :=
  match resolveFont font_path windir pathExists with
  | Except.error e => Except.error e
  | Except.ok _ =>
      Except.ok (overlayPages srcPages margins footer_height start_page_number
        page_size position stringWidth)

/-- The page an overlay page denotes once read back by `PyPDF2.PdfReader`:
it contains exactly the one numeral mark. -/
def OverlayPage.render (p : OverlayPage) : Page :=
  { size := p.size
    content := [{ x := p.anchor.x, y := p.anchor.y, angle := p.anchor.angle,
                  text := p.number }] }

/-- `PyPDF2.PageObject.merge_page self other`: appends `other`'s content
stream after `self`'s (so `other` is painted on top), keeps `self`'s media
box, and stores the result back into `self` — an in-place mutation, with no
cropping and no scaling. -/
def mergePage (self other : Page) : Page :=
  { size := self.size, content := self.content ++ other.content }

/-- The in-memory state of the merge loop of `add_page_numbers`: the page
objects held by `reader` over the source file, and the pages accumulated in
`writer`. -/
structure RunState where
  readerPages : List Page
  writerPages : List Page
deriving DecidableEq

/-- Iteration `i` of the loop of `add_page_numbers` (lines 187–198):
`page = reader.pages[i]`; `page.merge_page(overlay)` mutates that page object
of the reader in place; `writer.add_page(page)` appends the merged page. -/
def mergeStep (overlays : List Page) (s : RunState) (i : ℕ) : RunState :=
  let page := s.readerPages.getD i default
  let overlay := overlays.getD i default
  let merged := mergePage page overlay
  { readerPages := s.readerPages.set i merged
    writerPages := s.writerPages ++ [merged] }

/-- The whole merge loop: `for i in range(num_pages)` over the reader's and
the overlay pdf's pages, starting from a fresh empty writer. -/
def mergeLoop (srcPages overlays : List Page) : RunState :=
  (List.range srcPages.length).foldl (mergeStep overlays)
    { readerPages := srcPages, writerPages := [] }

/-- The merged pages in original source order: page `i` of the output is the
merge of source page `i` with overlay page `i`. -/
def mergedPages (srcPages overlays : List Page) : List Page :=
  srcPages.enum.map fun p => mergePage p.2 (overlays.getD p.1 default)

/-- `add_page_numbers` (lines 176–204): build the overlay pdf (a font failure
propagates and nothing is written), run the merge loop, then write the
writer's pages to the output path. The result carries the final in-memory
state and the written pages. -/
def addPageNumbers (srcPages : List Page) (margins : Margins)
    (footer_height : ℚ) (start_page_number : ℤ) (page_size : ℚ × ℚ)
    (position : String) (windir : String) (pathExists : String → Bool)
    (stringWidth : ℤ → ℚ) : Except FontError (RunState × List Page) :=
  match createPageNumberPdf srcPages margins footer_height start_page_number
      page_size position none windir pathExists stringWidth with
  | Except.error e => Except.error e
  | Except.ok ovs =>
      let s := mergeLoop srcPages (ovs.map OverlayPage.render)
      Except.ok (s, s.writerPages)

instance : Inhabited OverlayPage := ⟨⟨(0, 0), ⟨0, 0, 0⟩, 0⟩⟩

/-- A concrete sample document: one portrait page bearing one mark and one
landscape page. -/
def samplePages : List Page :=
  [{ size := (100, 200), content := [⟨1, 2, 0, 0⟩] },
   { size := (200, 100), content := [] }]

/-- Sample margins, in cm. -/
def sampleMargins : Margins := ⟨1, 1, 1, 1⟩

/-- A sample string-width function. -/
def sampleWidth : ℤ → ℚ := fun _ => 6

/-- The overlay pages of a sample run over `samplePages`, as read back by the
merge loop. -/
def sampleOverlays : List Page :=
  (overlayPages samplePages sampleMargins 1 7 (100, 200) "auto"
    sampleWidth).map OverlayPage.render

end PageNumAdd

namespace PageNumAdd

/-- C1: for every page geometry, margins and band height, the `top` anchor is
`((W − l·cm − r·cm)/2 + l·cm, H − fh·cm, 0°)` and the `bottom` and `auto`
anchors are `((W − l·cm − r·cm)/2 + l·cm, fh·cm, 0°)`, pre-offset. -/
theorem resolveAnchor_top_bottom_auto (ps : ℚ × ℚ) (m : Margins) (fh : ℚ) :
    resolveAnchor ps m fh "top" =
      { x := (ps.1 - m.left * cm - m.right * cm) / 2 + m.left * cm
        y := ps.2 - fh * cm
        angle := 0 } ∧
    resolveAnchor ps m fh "bottom" =
      { x := (ps.1 - m.left * cm - m.right * cm) / 2 + m.left * cm
        y := fh * cm
        angle := 0 } ∧
    resolveAnchor ps m fh "auto" =
      { x := (ps.1 - m.left * cm - m.right * cm) / 2 + m.left * cm
        y := fh * cm
        angle := 0 } := by
  refine ⟨?_, ?_, ?_⟩ <;> simp [resolveAnchor]

/-- C2: the `left` anchor is `(fh·cm, (H − t·cm − b·cm)/2 + t·cm, 270°)`, the
`right` anchor is `(W − fh·cm, same y, 90°)`; hence for the same page and
margins the two pre-offset y values agree and the x values differ by
`W − 2·(fh·cm)`. -/
theorem resolveAnchor_left_right (ps : ℚ × ℚ) (m : Margins) (fh : ℚ) :
    resolveAnchor ps m fh "left" =
      { x := fh * cm
        y := (ps.2 - m.top * cm - m.bottom * cm) / 2 + m.top * cm
        angle := 270 } ∧
    resolveAnchor ps m fh "right" =
      { x := ps.1 - fh * cm
        y := (ps.2 - m.top * cm - m.bottom * cm) / 2 + m.top * cm
        angle := 90 } ∧
    (resolveAnchor ps m fh "left").y = (resolveAnchor ps m fh "right").y ∧
    (resolveAnchor ps m fh "right").x - (resolveAnchor ps m fh "left").x =
      ps.1 - 2 * (fh * cm) := by
  refine ⟨?_, ?_, ?_, ?_⟩ <;> simp [resolveAnchor] <;> ring

/-- C3: `adjustAnchor` adds the fixed offset `(+0.05·cm, +0.15·cm)` to every
anchor, then decreases x by half the text width exactly for `top`, `bottom`
and `auto`; `left` and `right` get no width adjustment, and the rotation is
never changed. -/
theorem adjustAnchor_offset_and_centering (pos : String) (tw : ℚ) (a : Anchor) :
    (adjustAnchor pos tw a).y = a.y + (15 / 100) * cm ∧
    (adjustAnchor pos tw a).angle = a.angle ∧
    ((pos = "top" ∨ pos = "bottom" ∨ pos = "auto") →
      (adjustAnchor pos tw a).x = a.x + (5 / 100) * cm - tw / 2) ∧
    ((pos = "left" ∨ pos = "right") →
      (adjustAnchor pos tw a).x = a.x + (5 / 100) * cm) := by
  refine ⟨rfl, rfl, ?_, ?_⟩
  · rintro (h | h | h) <;> subst h <;> simp [adjustAnchor]
  · rintro (h | h) <;> subst h <;> simp [adjustAnchor]

/-- Witness for C3 at a concrete input: `bottom` is width-adjusted,
`left` is not. -/
theorem adjustAnchor_offset_and_centering_witness :
    (adjustAnchor "bottom" 10 ⟨0, 0, 0⟩).x = 0 + (5 / 100) * cm - 10 / 2 ∧
    (adjustAnchor "left" 10 ⟨0, 0, 0⟩).x = 0 + (5 / 100) * cm :=
  ⟨(adjustAnchor_offset_and_centering "bottom" 10 ⟨0, 0, 0⟩).2.2.1
      (Or.inr (Or.inl rfl)),
   (adjustAnchor_offset_and_centering "left" 10 ⟨0, 0, 0⟩).2.2.2 (Or.inl rfl)⟩

/-- C9: even when the margins exceed the page dimension on either axis, the
anchor computation applies the unclamped midpoint formula (it is a total
function and raises no error; the witness exhibits a negative coordinate). -/
theorem resolveAnchor_no_clamping (ps : ℚ × ℚ) (m : Margins) (fh : ℚ)
    (hx : ps.1 < (m.left + m.right) * cm) (hy : ps.2 < (m.top + m.bottom) * cm) :
    (resolveAnchor ps m fh "bottom").x =
      (ps.1 - m.left * cm - m.right * cm) / 2 + m.left * cm ∧
    (resolveAnchor ps m fh "top").x =
      (ps.1 - m.left * cm - m.right * cm) / 2 + m.left * cm ∧
    (resolveAnchor ps m fh "left").y =
      (ps.2 - m.top * cm - m.bottom * cm) / 2 + m.top * cm := by
  refine ⟨?_, ?_, ?_⟩ <;> simp [resolveAnchor]

/-- Witness for C9: margins `(top 0, right 10, bottom 10, left 0)` cm on a
100×100 pt page exceed both page dimensions; the computation still runs and
yields negative x and y coordinates, with no clamping. -/
theorem resolveAnchor_no_clamping_witness :
    (100 : ℚ) < ((0 : ℚ) + 10) * cm ∧ (100 : ℚ) < ((0 : ℚ) + 10) * cm ∧
    ((resolveAnchor (100, 100) ⟨0, 10, 10, 0⟩ 1 "bottom").x =
        ((100 : ℚ) - 0 * cm - 10 * cm) / 2 + 0 * cm ∧
      (resolveAnchor (100, 100) ⟨0, 10, 10, 0⟩ 1 "top").x =
        ((100 : ℚ) - 0 * cm - 10 * cm) / 2 + 0 * cm ∧
      (resolveAnchor (100, 100) ⟨0, 10, 10, 0⟩ 1 "left").y =
        ((100 : ℚ) - 0 * cm - 10 * cm) / 2 + 0 * cm) ∧
    (resolveAnchor (100, 100) ⟨0, 10, 10, 0⟩ 1 "bottom").x < 0 ∧
    (resolveAnchor (100, 100) ⟨0, 10, 10, 0⟩ 1 "left").y < 0 := by
  have h := resolveAnchor_no_clamping (100, 100) ⟨0, 10, 10, 0⟩ 1
    (by norm_num [cm]) (by norm_num [cm])
  refine ⟨by norm_num [cm], by norm_num [cm], h, ?_, ?_⟩
  · rw [h.1]; norm_num [cm]
  · rw [h.2.2]; norm_num [cm]

/-- C10: any position string other than `top`, `bottom`, `left`, `right`
falls through to the `else` branch, so its computed placement equals the
`bottom`/`auto` placement: x at the writable-band horizontal midpoint,
y = bandHeight (in points), rotation 0°. -/
theorem resolveAnchor_unknown_position (ps : ℚ × ℚ) (m : Margins) (fh : ℚ)
    (pos : String)
    (h : pos ∉ (["top", "bottom", "left", "right"] : List String)) :
    resolveAnchor ps m fh pos = resolveAnchor ps m fh "auto" ∧
    resolveAnchor ps m fh pos =
      { x := (ps.1 - m.left * cm - m.right * cm) / 2 + m.left * cm
        y := fh * cm
        angle := 0 } := by
  simp only [List.mem_cons, List.mem_singleton, not_or] at h
  obtain ⟨h1, h2, h3, h4⟩ := h
  constructor <;> simp [resolveAnchor, h1, h2, h3, h4]

/-- Witness for C10: the arbitrary unvalidated string `center` gets the
`bottom`/`auto` placement. -/
theorem resolveAnchor_unknown_position_witness :
    resolveAnchor (100, 200) ⟨1, 2, 3, 4⟩ 1 "center" =
      resolveAnchor (100, 200) ⟨1, 2, 3, 4⟩ 1 "auto" ∧
    resolveAnchor (100, 200) ⟨1, 2, 3, 4⟩ 1 "center" =
      { x := ((100 : ℚ) - 4 * cm - 2 * cm) / 2 + 4 * cm
        y := 1 * cm
        angle := 0 } :=
  resolveAnchor_unknown_position (100, 200) ⟨1, 2, 3, 4⟩ 1 "center" (by decide)

end PageNumAdd

namespace PageNumAdd

/-- The overlay pdf has one page per source page. -/
lemma overlayPages_length (srcPages : List Page) (m : Margins) (fh : ℚ)
    (start : ℤ) (ps : ℚ × ℚ) (pos : String) (sw : ℤ → ℚ) :
    (overlayPages srcPages m fh start ps pos sw).length = srcPages.length := by
  simp [overlayPages]

/-- The numeral on overlay page i is start_page_number + i. -/
lemma overlayPages_number (srcPages : List Page) (m : Margins) (fh : ℚ)
    (start : ℤ) (ps : ℚ × ℚ) (pos : String) (sw : ℤ → ℚ) (i : ℕ)
    (hi : i < (overlayPages srcPages m fh start ps pos sw).length) :
    ((overlayPages srcPages m fh start ps pos sw).get ⟨i, hi⟩).number =
      start + i := by
  simp [overlayPages]

/-- The size of overlay page i is decided by source page i's own dimensions. -/
lemma overlayPages_size (srcPages : List Page) (m : Margins) (fh : ℚ)
    (start : ℤ) (ps : ℚ × ℚ) (pos : String) (sw : ℤ → ℚ) (i : ℕ)
    (hi : i < (overlayPages srcPages m fh start ps pos sw).length) :
    ((overlayPages srcPages m fh start ps pos sw).get ⟨i, hi⟩).size =
      if (srcPages.get ⟨i, by
            rw [← overlayPages_length srcPages m fh start ps pos sw]
            exact hi⟩).size.1 >
          (srcPages.get ⟨i, by
            rw [← overlayPages_length srcPages m fh start ps pos sw]
            exact hi⟩).size.2
      then landscape ps else ps := by
  simp [overlayPages]

lemma mergedPages_length (srcPages overlays : List Page) :
    (mergedPages srcPages overlays).length = srcPages.length := by
  simp [mergedPages]

lemma mergedPages_getD (srcPages overlays : List Page) (k : ℕ)
    (hk : k < srcPages.length) :
    (mergedPages srcPages overlays).getD k default =
      mergePage (srcPages.getD k default) (overlays.getD k default) := by
  have hk2 : k < (mergedPages srcPages overlays).length := by
    rw [mergedPages_length]; exact hk
  rw [List.getD_eq_getElem _ _ hk2, List.getD_eq_getElem _ _ hk]
  simp [mergedPages]

/-- Loop invariant of the merge loop: after the first k iterations the
reader holds the merged first k pages followed by the untouched rest, and
the writer holds exactly the merged first k pages in order.  The i-th
iteration reads reader page i, which earlier iterations (touching only
indices below i) have not modified, so each merge sees the original source
page. -/
lemma mergeLoop_inv (srcPages overlays : List Page) :
    ∀ k, k ≤ srcPages.length →
      (List.range k).foldl (mergeStep overlays)
          { readerPages := srcPages, writerPages := [] } =
        { readerPages :=
            (mergedPages srcPages overlays).take k ++ srcPages.drop k
          writerPages := (mergedPages srcPages overlays).take k } := by
  intro k
  induction k with
  | zero => intro _; simp
  | succ k ih =>
      intro hk
      have hk1 : k < srcPages.length := hk
      have hkM : k < (mergedPages srcPages overlays).length := by
        rw [mergedPages_length]; exact hk1
      have hlen : ((mergedPages srcPages overlays).take k).length = k := by
        rw [List.length_take, mergedPages_length]
        exact Nat.min_eq_left (Nat.le_of_lt hk1)
      have hpage :
          ((mergedPages srcPages overlays).take k ++ srcPages.drop k).getD k
              default = srcPages.getD k default := by
        rw [List.getD_append_right _ _ _ _ (Nat.le_of_eq hlen), hlen,
          Nat.sub_self, List.drop_eq_getElem_cons hk1, List.getD_cons_zero,
          List.getD_eq_getElem _ _ hk1]
      have hmerged :
          mergePage (srcPages.getD k default) (overlays.getD k default) =
            (mergedPages srcPages overlays).getD k default :=
        (mergedPages_getD srcPages overlays k hk1).symm
      have hset :
          ((mergedPages srcPages overlays).take k ++ srcPages.drop k).set k
              ((mergedPages srcPages overlays).getD k default) =
            (mergedPages srcPages overlays).take (k + 1) ++
              srcPages.drop (k + 1) := by
        rw [List.set_append_right _ _ (Nat.le_of_eq hlen), hlen, Nat.sub_self,
          List.drop_eq_getElem_cons hk1, List.set_cons_zero,
          List.getD_eq_getElem _ _ hkM, List.take_succ,
          List.getElem?_eq_getElem hkM, Option.toList_some,
          List.append_assoc, List.singleton_append]
      have hwriter :
          (mergedPages srcPages overlays).take k ++
              [(mergedPages srcPages overlays).getD k default] =
            (mergedPages srcPages overlays).take (k + 1) := by
        rw [List.getD_eq_getElem _ _ hkM, List.take_succ,
          List.getElem?_eq_getElem hkM, Option.toList_some]
      rw [List.range_succ, List.foldl_append, ih (Nat.le_of_lt hk1),
        List.foldl_cons, List.foldl_nil]
      simp only [mergeStep]
      rw [hpage, hmerged, hset, hwriter]

/-- After the full loop, the reader holds the merged pages (the source page
objects have been mutated in place) and the writer holds the merged pages in
original order. -/
lemma mergeLoop_eq (srcPages overlays : List Page) :
    mergeLoop srcPages overlays =
      { readerPages := mergedPages srcPages overlays
        writerPages := mergedPages srcPages overlays } := by
  have h := mergeLoop_inv srcPages overlays srcPages.length (Nat.le_refl _)
  unfold mergeLoop
  rw [h, List.drop_length, List.append_nil,
    List.take_of_length_le (Nat.le_of_eq (mergedPages_length srcPages overlays))]

lemma createPageNumberPdf_ok (srcPages : List Page) (m : Margins) (fh : ℚ)
    (start : ℤ) (ps : ℚ × ℚ) (pos : String) (fp : Option String)
    (windir : String) (pathExists : String → Bool) (sw : ℤ → ℚ) (p : String)
    (hfont : resolveFont fp windir pathExists = Except.ok p) :
    createPageNumberPdf srcPages m fh start ps pos fp windir pathExists sw =
      Except.ok (overlayPages srcPages m fh start ps pos sw) := by
  unfold createPageNumberPdf
  rw [hfont]

lemma createPageNumberPdf_error (srcPages : List Page) (m : Margins) (fh : ℚ)
    (start : ℤ) (ps : ℚ × ℚ) (pos : String) (fp : Option String)
    (windir : String) (pathExists : String → Bool) (sw : ℤ → ℚ)
    (e : FontError)
    (hfont : resolveFont fp windir pathExists = Except.error e) :
    createPageNumberPdf srcPages m fh start ps pos fp windir pathExists sw =
      Except.error e := by
  unfold createPageNumberPdf
  rw [hfont]

lemma addPageNumbers_ok (srcPages : List Page) (m : Margins) (fh : ℚ)
    (start : ℤ) (ps : ℚ × ℚ) (pos windir : String)
    (pathExists : String → Bool) (sw : ℤ → ℚ) (p : String)
    (hfont : resolveFont none windir pathExists = Except.ok p) :
    addPageNumbers srcPages m fh start ps pos windir pathExists sw =
      Except.ok
        (mergeLoop srcPages
          ((overlayPages srcPages m fh start ps pos sw).map OverlayPage.render),
        (mergeLoop srcPages
          ((overlayPages srcPages m fh start ps pos sw).map
            OverlayPage.render)).writerPages) := by
  unfold addPageNumbers
  rw [createPageNumberPdf_ok srcPages m fh start ps pos none windir pathExists
    sw p hfont]

lemma addPageNumbers_error (srcPages : List Page) (m : Margins) (fh : ℚ)
    (start : ℤ) (ps : ℚ × ℚ) (pos windir : String)
    (pathExists : String → Bool) (sw : ℤ → ℚ) (e : FontError)
    (hfont : resolveFont none windir pathExists = Except.error e) :
    addPageNumbers srcPages m fh start ps pos windir pathExists sw =
      Except.error e := by
  unfold addPageNumbers
  rw [createPageNumberPdf_error srcPages m fh start ps pos none windir
    pathExists sw e hfont]

end PageNumAdd

namespace PageNumAdd

/-- C4: the numeral drawn on page i is exactly start_page_number + i, so over
a run the sequence of page numbers increases strictly by 1 with no gaps and
no duplicates. -/
theorem overlay_numbers_sequential (srcPages : List Page) (m : Margins)
    (fh : ℚ) (start : ℤ) (ps : ℚ × ℚ) (pos : String) (sw : ℤ → ℚ) :
    (overlayPages srcPages m fh start ps pos sw).length = srcPages.length ∧
    (∀ i, i < srcPages.length →
      ((overlayPages srcPages m fh start ps pos sw).getD i default).number =
        start + i) ∧
    List.Chain' (fun a b => b.number = a.number + 1)
      (overlayPages srcPages m fh start ps pos sw) ∧
    List.Pairwise (fun a b => a.number < b.number)
      (overlayPages srcPages m fh start ps pos sw) := by
  refine ⟨overlayPages_length srcPages m fh start ps pos sw, ?_, ?_, ?_⟩
  · intro i hi
    have hi2 : i < (overlayPages srcPages m fh start ps pos sw).length := by
      rw [overlayPages_length]; exact hi
    rw [List.getD_eq_getElem _ _ hi2]
    have := overlayPages_number srcPages m fh start ps pos sw i hi2
    rw [List.get_eq_getElem] at this
    exact this
  · rw [List.chain'_iff_get]
    intro i h
    rw [overlayPages_number srcPages m fh start ps pos sw i (by omega),
      overlayPages_number srcPages m fh start ps pos sw (i + 1) (by omega)]
    push_cast
    ring
  · rw [List.pairwise_iff_getElem]
    intro i j hi hj hij
    have h1 := overlayPages_number srcPages m fh start ps pos sw i hi
    have h2 := overlayPages_number srcPages m fh start ps pos sw j hj
    rw [List.get_eq_getElem] at h1 h2
    rw [h1, h2]
    omega

/-- Witness for C4: a concrete run starting at 7 puts numeral 8 on page 1. -/
theorem overlay_numbers_sequential_witness :
    (overlayPages samplePages sampleMargins 1 7 (100, 200) "auto"
        sampleWidth).length = samplePages.length ∧
    ((overlayPages samplePages sampleMargins 1 7 (100, 200) "auto"
        sampleWidth).getD 1 default).number = 7 + 1 :=
  ⟨(overlay_numbers_sequential samplePages sampleMargins 1 7 (100, 200)
      "auto" sampleWidth).1,
   (overlay_numbers_sequential samplePages sampleMargins 1 7 (100, 200)
      "auto" sampleWidth).2.1 1 (by norm_num [samplePages])⟩

/-- C6: the orientation of overlay page i is decided from source page i's own
intrinsic dimensions — landscape variant of the nominal size when width >
height, the nominal size otherwise — independently per page; and the
landscape variant of a portrait nominal size has width > height. -/
theorem overlay_orientation_per_page (srcPages : List Page) (m : Margins)
    (fh : ℚ) (start : ℤ) (ps : ℚ × ℚ) (pos : String) (sw : ℤ → ℚ) :
    (∀ i, i < srcPages.length →
      ((overlayPages srcPages m fh start ps pos sw).getD i default).size =
        if (srcPages.getD i default).size.1 > (srcPages.getD i default).size.2
        then landscape ps else ps) ∧
    ∀ q : ℚ × ℚ, q.1 < q.2 → (landscape q).1 > (landscape q).2 := by
  constructor
  · intro i hi
    have hi2 : i < (overlayPages srcPages m fh start ps pos sw).length := by
      rw [overlayPages_length]; exact hi
    rw [List.getD_eq_getElem _ _ hi2, List.getD_eq_getElem _ _ hi]
    have := overlayPages_size srcPages m fh start ps pos sw i hi2
    rw [List.get_eq_getElem, List.get_eq_getElem] at this
    exact this
  · intro q hq
    simp only [landscape, if_pos hq]
    exact hq

/-- Witness for C6: in a mixed document with nominal size A4, the portrait
source page keeps A4 and the landscape source page gets landscape A4, whose
width exceeds its height. -/
theorem overlay_orientation_per_page_witness :
    ((overlayPages samplePages sampleMargins 1 7 A4 "auto"
        sampleWidth).getD 0 default).size =
      (if (samplePages.getD 0 default).size.1 >
          (samplePages.getD 0 default).size.2
        then landscape A4 else A4) ∧
    ((overlayPages samplePages sampleMargins 1 7 A4 "auto"
        sampleWidth).getD 1 default).size =
      (if (samplePages.getD 1 default).size.1 >
          (samplePages.getD 1 default).size.2
        then landscape A4 else A4) ∧
    (landscape A4).1 > (landscape A4).2 :=
  ⟨(overlay_orientation_per_page samplePages sampleMargins 1 7 A4 "auto"
      sampleWidth).1 0 (by norm_num [samplePages]),
   (overlay_orientation_per_page samplePages sampleMargins 1 7 A4 "auto"
      sampleWidth).1 1 (by norm_num [samplePages]),
   (overlay_orientation_per_page samplePages sampleMargins 1 7 A4 "auto"
      sampleWidth).2 A4 (by norm_num [A4, mm, cm])⟩

/-- C5: a successful run writes exactly one page per source page, and page i
of the output is the merge of source page i with overlay page i, appended in
strict original order. -/
theorem addPageNumbers_preserves_order (srcPages : List Page) (m : Margins)
    (fh : ℚ) (start : ℤ) (ps : ℚ × ℚ) (pos windir : String)
    (pathExists : String → Bool) (sw : ℤ → ℚ) (s : RunState)
    (out : List Page)
    (h : addPageNumbers srcPages m fh start ps pos windir pathExists sw =
      Except.ok (s, out)) :
    out.length = srcPages.length ∧
    ∀ i, i < srcPages.length →
      out.getD i default =
        mergePage (srcPages.getD i default)
          (((overlayPages srcPages m fh start ps pos sw).map
              OverlayPage.render).getD i default) := by
  cases hf : resolveFont none windir pathExists with
  | error e =>
      rw [addPageNumbers_error srcPages m fh start ps pos windir pathExists
        sw e hf] at h
      exact absurd h (by simp)
  | ok p =>
      rw [addPageNumbers_ok srcPages m fh start ps pos windir pathExists
        sw p hf] at h
      simp only [Except.ok.injEq, Prod.mk.injEq] at h
      obtain ⟨hs, hout⟩ := h
      subst hout
      constructor
      · rw [mergeLoop_eq]
        exact mergedPages_length srcPages _
      · intro i hi
        rw [mergeLoop_eq]
        exact mergedPages_getD srcPages _ i hi

/-- Witness for C5 on a concrete two-page run. -/
theorem addPageNumbers_preserves_order_witness :
    (mergeLoop samplePages sampleOverlays).writerPages.length =
      samplePages.length ∧
    (mergeLoop samplePages sampleOverlays).writerPages.getD 0 default =
      mergePage (samplePages.getD 0 default)
        (sampleOverlays.getD 0 default) :=
  ⟨(addPageNumbers_preserves_order samplePages sampleMargins 1 7 (100, 200)
      "auto" "WINDOWS" (fun _ => true) sampleWidth
      (mergeLoop samplePages sampleOverlays)
      (mergeLoop samplePages sampleOverlays).writerPages rfl).1,
   (addPageNumbers_preserves_order samplePages sampleMargins 1 7 (100, 200)
      "auto" "WINDOWS" (fun _ => true) sampleWidth
      (mergeLoop samplePages sampleOverlays)
      (mergeLoop samplePages sampleOverlays).writerPages rfl).2 0
      (by norm_num [samplePages])⟩

/-- C8: when the font resource cannot be located, the run fails with the
fatal assertion error before any page is processed and before anything is
written — `add_page_numbers` and `create_page_number_pdf` both end in the
error result, producing no pages and no written output, with no fallback
font. -/
theorem font_missing_aborts (srcPages : List Page) (m : Margins) (fh : ℚ)
    (start : ℤ) (ps : ℚ × ℚ) (pos windir : String)
    (pathExists : String → Bool) (sw : ℤ → ℚ)
    (h : pathExists (simsunPath windir) = false) :
    addPageNumbers srcPages m fh start ps pos windir pathExists sw =
      Except.error FontError.simsunMissing ∧
    createPageNumberPdf srcPages m fh start ps pos none windir pathExists
      sw = Except.error FontError.simsunMissing := by
  have hr : resolveFont none windir pathExists =
      Except.error FontError.simsunMissing := by
    simp [resolveFont, h]
  exact ⟨addPageNumbers_error srcPages m fh start ps pos windir pathExists
      sw FontError.simsunMissing hr,
    createPageNumberPdf_error srcPages m fh start ps pos none windir
      pathExists sw FontError.simsunMissing hr⟩

/-- Witness for C8: with no font file anywhere, the concrete run aborts. -/
theorem font_missing_aborts_witness :
    addPageNumbers samplePages sampleMargins 1 7 (100, 200) "auto" "WINDOWS"
      (fun _ => false) sampleWidth =
      Except.error FontError.simsunMissing :=
  (font_missing_aborts samplePages sampleMargins 1 7 (100, 200) "auto"
    "WINDOWS" (fun _ => false) sampleWidth rfl).1

end PageNumAdd

namespace PageNumAdd

/-- Counterexample to C7: in a concrete run of `add_page_numbers` (font
present, two source pages), `page.merge_page(overlay)` mutates the reader's
page objects in place, so after the loop the in-memory source pages are NOT
unchanged: the reader's pages differ from the original source pages. -/
theorem source_pages_mutated :
    addPageNumbers samplePages sampleMargins 1 7 (100, 200) "auto" "WINDOWS"
        (fun _ => true) sampleWidth =
      Except.ok (mergeLoop samplePages sampleOverlays,
        (mergeLoop samplePages sampleOverlays).writerPages) ∧
    (mergeLoop samplePages sampleOverlays).readerPages ≠ samplePages := by
  constructor
  · rfl
  · rw [mergeLoop_eq]
    intro h
    have h0 : 0 < samplePages.length := by norm_num [samplePages]
    have h1 := congrArg (fun l => ((l.getD 0 default).content.length)) h
    simp only [] at h1
    rw [mergedPages_getD samplePages sampleOverlays 0 h0] at h1
    have h2 : (sampleOverlays.getD 0 default).content.length = 1 := by
      rw [sampleOverlays]
      have hl : 0 < ((overlayPages samplePages sampleMargins 1 7 (100, 200)
          "auto" sampleWidth).map OverlayPage.render).length := by
        rw [List.length_map, overlayPages_length]
        exact h0
      rw [List.getD_eq_getElem _ _ hl, List.getElem_map]
      rfl
    have h3 : (mergePage (samplePages.getD 0 default)
        (sampleOverlays.getD 0 default)).content.length =
        (samplePages.getD 0 default).content.length + 1 := by
      simp only [mergePage, List.length_append]
      rw [h2]
    rw [h3] at h1
    omega

/-- C7 amended: each output page is produced by merging the numeral overlay
into the reader's in-memory page object in place — the overlay content is
appended after the source content (overlay painted on top), the source
content and media box are fully preserved underneath (no cropping, no
scaling), and the source file on disk is never written — but the in-memory
source page objects do not remain unchanged: after the run the reader's page
i holds the merged page. -/
theorem merge_appends_overlay_on_top (srcPages overlays : List Page) :
    (mergeLoop srcPages overlays).readerPages =
      mergedPages srcPages overlays ∧
    ∀ i, i < srcPages.length →
      ((mergeLoop srcPages overlays).writerPages.getD i default).content =
        (srcPages.getD i default).content ++
          (overlays.getD i default).content ∧
      ((mergeLoop srcPages overlays).writerPages.getD i default).size =
        (srcPages.getD i default).size := by
  have hW : (mergeLoop srcPages overlays).writerPages =
      mergedPages srcPages overlays := by rw [mergeLoop_eq]
  refine ⟨by rw [mergeLoop_eq], ?_⟩
  intro i hi
  rw [hW, mergedPages_getD srcPages overlays i hi]
  exact ⟨rfl, rfl⟩

/-- Witness for C7 (amended) on the concrete two-page run: output page 0
carries the source content followed by the overlay content, with the source
page's media box. -/
theorem merge_appends_overlay_on_top_witness :
    ((mergeLoop samplePages sampleOverlays).writerPages.getD 0
        default).content =
      (samplePages.getD 0 default).content ++
        (sampleOverlays.getD 0 default).content ∧
    ((mergeLoop samplePages sampleOverlays).writerPages.getD 0
        default).size = (samplePages.getD 0 default).size :=
  (merge_appends_overlay_on_top samplePages sampleOverlays).2 0
    (by norm_num [samplePages])

end PageNumAdd
